import Mathlib

/-!
Verification of the `ModflowFlwob` package writer
(`flopy/modflow/mfflwob.py`): a shallow embedding of the constructor
(`__init__`) and of `write_file`, together with theorems about the
claims on the flow-observation file format.

Modelling conventions:
* machine integers become `Int` / `Nat`; `float` values carried through
  unchanged by the code (no arithmetic is performed on them) become `Rat`;
* fallible operations (Python `IndexError`, NumPy broadcast errors,
  `ValueError` from `max([])`, negative `np.zeros` dimensions, and the
  unbound-variable crash on an unrecognized `flowtype`) become `Option`,
  with `none` marking the raising of an exception;
* each emitted line of the two output files becomes one constructor of a
  structured `Line` / `InsLine` value holding exactly the fields the
  source interpolates into the corresponding format string.
-/

/-- One line of the primary (FBOB) output file, holding the values the
source interpolates into the corresponding fixed-width format string. -/
inductive Line where
  /-- the `self.heading` comment line -/
  | heading (s : String)
  /-- `'%10i%10i%10i%10i' % (nqfb, nqcfb, nqtfb, iufbobsv)` -/
  | header (nqfb : Nat) (nqcfb : Int) (nqtfb : Nat) (iufbobsv : Int)
  /-- `'%10e' % tomultfb` -/
  | tomult (t : Rat)
  /-- section 3: `'{:10d}{:10d}'.format(nqobfb[i], nqclfb[i])` -/
  | groupHeader (nqobfb nqclfb : Int)
  /-- section 4: one observation record read at the global cursor -/
  | obsRecord (nam : String) (irefsp : Int) (toffset flwobs : Rat)
  /-- section 5: one cell record of the current group -/
  | cellRecord (layer r column : Int) (factor : Rat)
  deriving DecidableEq, Repr

/-- One line of the auxiliary instruction ("standard") file. -/
inductive InsLine where
  /-- the literal marker line `jif @` -/
  | marker
  /-- the directive line `StandardFile 0 1 <nqtfb>` -/
  | standardFile (nqtfb : Nat)
  /-- one bare observation name -/
  | nam (s : String)
  deriving DecidableEq, Repr

/-- The state of a `ModflowFlwob` package instance after `__init__`:
the metadata selected from `flowtype` plus the normalized arrays. -/
structure ModflowFlwob where
  fn_path : String
  name : List String
  extension : List String
  unitnumber : List Int
  url : String
  heading : String
  nqfb : Nat
  nqcfb : Int
  nqtfb : Nat
  iufbobsv : Int
  tomultfb : Rat
  nqobfb : List Int
  nqclfb : List Int
  obsnam : List String
  irefsp : List Int
  toffset : List Rat
  flwobs : List Rat
  layer : List (List Int)
  row : List (List Int)
  column : List (List Int)
  factor : List (List Rat)
  deriving DecidableEq, Repr

/-- The raw keyword arguments of `ModflowFlwob.__init__` (plus `fn_path`,
the file path the parent `Package` machinery assigns to the instance). -/
structure FlwobInput where
  fn_path : String
  nqfb : Nat
  nqcfb : Int
  nqtfb : Nat
  iufbobsv : Int
  tomultfb : Rat
  nqobfb : List Int
  nqclfb : List Int
  obsnam : List String
  irefsp : List Int
  toffset : List Rat
  flwobs : List Rat
  layer : List (List Int)
  row : List (List Int)
  column : List (List Int)
  factor : List (List Rat)
  flowtype : String
  extension : List String
  unitnumber : List Int
  deriving DecidableEq, Repr

/-- The metadata one of the four recognized `flowtype` branches selects. -/
structure FlowtypeMeta where
  name : List String
  extension : List String
  unitnumber : List Int
  iufbobsv : Int
  url : String
  heading : String
  deriving DecidableEq, Repr

/-- The default `extension` argument of `__init__`. -/
def defaultExtension : List String :=
  ["chob", "obc", "gbob", "obg", "drob", "obd", "rvob", "obr"]

/-- The default `unitnumber` argument of `__init__`. -/
def defaultUnitnumber : List Int := [40, 140, 41, 141, 42, 142, 43, 143]

/-- Python `str.upper` (the source only ever compares ASCII tags). -/
def pyUpper (s : String) : String := String.mk (s.data.map Char.toUpper)

/-- Python `str.strip` with no argument: remove surrounding whitespace. -/
def pyStrip (s : String) : String :=
  String.mk (((s.data.dropWhile Char.isWhitespace).reverse.dropWhile
    Char.isWhitespace).reverse)

/-- The `flowtype.upper().strip()` dispatch at the top of `__init__`:
each branch picks the record names, a slice of the `extension` and
`unitnumber` tables, the saved-output unit `iufbobsv = unitnumber[1]`
(an `IndexError`, hence `none`, if the slice is too short), the url and
the heading.  No branch matching leaves the local `name` unbound and the
subsequent `Package.__init__` call raises, hence `none`. -/
def selectFlowtype (flowtype : String) (extension : List String)
    (unitnumber : List Int) : Option FlowtypeMeta :=
  let t := pyStrip (pyUpper flowtype)
  if t = "CHD" then do
    let u := unitnumber.take 2
    let iu ← u[1]?
    some { name := ["CHOB", "DATA"], extension := extension.take 2,
           unitnumber := u, iufbobsv := iu, url := "chob.htm",
           heading := "# CHOB for MODFLOW, generated by Flopy." }
  else if t = "GHB" then do
    let u := (unitnumber.drop 2).take 2
    let iu ← u[1]?
    some { name := ["GBOB", "DATA"], extension := (extension.drop 2).take 2,
           unitnumber := u, iufbobsv := iu, url := "gbob.htm",
           heading := "# GBOB for MODFLOW, generated by Flopy." }
  else if t = "DRN" then do
    let u := (unitnumber.drop 4).take 2
    let iu ← u[1]?
    some { name := ["DROB", "DATA"], extension := (extension.drop 4).take 2,
           unitnumber := u, iufbobsv := iu, url := "drob.htm",
           heading := "# DROB for MODFLOW, generated by Flopy." }
  else if t = "RIV" then do
    let u := (unitnumber.drop 6).take 2
    let iu ← u[1]?
    some { name := ["RVOB", "DATA"], extension := (extension.drop 6).take 2,
           unitnumber := u, iufbobsv := iu, url := "rvob.htm",
           heading := "# RVOB for MODFLOW, generated by Flopy." }
  else none

/-- NumPy slice assignment `dst[:k] = src` on a 1-d array `dst`: the
slice has length `min k (len dst)`; the assignment succeeds when `src`
has exactly that length, or when `src` has length one (broadcast);
otherwise NumPy raises a broadcast `ValueError`, hence `none`. -/
def assignSlice {α : Type} (dst : List α) (k : Nat) (src : List α) :
    Option (List α) :=
  let m := min k dst.length
  if src.length = m then some (src ++ dst.drop m)
  else
    match src with
    | [x] => some (List.replicate m x ++ dst.drop m)
    | _ => none

/-- NumPy full-array assignment `dst[:] = src`. -/
def assignFull {α : Type} (dst : List α) (src : List α) : Option (List α) :=
  assignSlice dst dst.length src

/-- The loop `for i in range(nqfb): self.arr[i, :len(src[i])] = src[i]`
copying each ragged sub-sequence left-aligned into row `i` of the dense
array; `src[i]` raises `IndexError` (hence `none`) when `src` is shorter
than `nqfb`. -/
def copyRagged {α : Type} (src : List (List α)) :
    Nat → Nat → List (List α) → Option (List (List α))
  | 0, _, dst => some dst
  | Nat.succ n, i, dst => do
    let s ← src[i]?
    let d ← dst[i]?
    let d2 ← assignSlice d s.length s
    copyRagged src n (i + 1) (dst.set i d2)

/-- The body of `__init__` after the `flowtype` dispatch: Python
`max(self.nqclfb)` raises on an empty list (`none`), and
`np.zeros((nqfb, max(nqclfb)))` raises on a negative dimension
(`none`) — the source takes the max of the *signed* flags.  Then the
dense zero arrays are allocated and the raw arrays assigned into them;
`self.obsnam[:] = obsnam` is a plain-list self-assignment and keeps
`obsnam` as passed, whatever its length. -/
def flwobCore (meta : FlowtypeMeta) (a : FlwobInput) : Option ModflowFlwob := do
  let m ← a.nqclfb.max?
  if 0 ≤ m then
    let w := m.toNat
    let nqobfbA ← assignFull (List.replicate a.nqfb (0 : Int)) a.nqobfb
    let nqclfbA ← assignFull (List.replicate a.nqfb (0 : Int)) a.nqclfb
    let irefspA ← assignFull (List.replicate a.nqtfb (0 : Int)) a.irefsp
    let toffsetA ← assignFull (List.replicate a.nqtfb (0 : Rat)) a.toffset
    let flwobsA ← assignFull (List.replicate a.nqtfb (0 : Rat)) a.flwobs
    let layerA ← copyRagged a.layer a.nqfb 0
      (List.replicate a.nqfb (List.replicate w (0 : Int)))
    let rowA ← copyRagged a.row a.nqfb 0
      (List.replicate a.nqfb (List.replicate w (0 : Int)))
    let columnA ← copyRagged a.column a.nqfb 0
      (List.replicate a.nqfb (List.replicate w (0 : Int)))
    let factorA ← copyRagged a.factor a.nqfb 0
      (List.replicate a.nqfb (List.replicate w (0 : Rat)))
    some { fn_path := a.fn_path, name := meta.name, extension := meta.extension,
           unitnumber := meta.unitnumber, url := meta.url,
           heading := meta.heading, nqfb := a.nqfb, nqcfb := a.nqcfb,
           nqtfb := a.nqtfb, iufbobsv := meta.iufbobsv,
           tomultfb := a.tomultfb, nqobfb := nqobfbA, nqclfb := nqclfbA,
           obsnam := a.obsnam, irefsp := irefspA, toffset := toffsetA,
           flwobs := flwobsA, layer := layerA, row := rowA,
           column := columnA, factor := factorA }
  else none

/-- `ModflowFlwob.__init__`: the `flowtype` dispatch followed by the
array normalization. -/
def flwobInit (a : FlwobInput) : Option ModflowFlwob :=
  (selectFlowtype a.flowtype a.extension a.unitnumber).bind
    (fun meta => flwobCore meta a)

/-- The section-4 inner loop `for j in range(nqobfb[i])`: one observation
record per iteration, read at the global cursor `c` from the four
flattened arrays (an out-of-range read is an `IndexError`, hence `none`),
with `c += 1` after each record.  First argument is the remaining
iteration count, second the cursor; returns the emitted lines and the
final cursor. -/
def writeObsRecs (obsnam : List String) (irefsp : List Int)
    (toffset flwobs : List Rat) : Nat → Nat → Option (List Line × Nat)
  | 0, c => some ([], c)
  | Nat.succ n, c => do
    let nm ← obsnam[c]?
    let ir ← irefsp[c]?
    let toff ← toffset[c]?
    let fl ← flwobs[c]?
    let p ← writeObsRecs obsnam irefsp toffset flwobs n (c + 1)
    some (Line.obsRecord nm ir toff fl :: p.1, p.2)

/-- The section-5 inner loop `for j in range(abs(nqclfb[i]))`: when the
group flag is negative the whole factor row is overwritten with `1.0`
*inside* the loop (`self.factor[i, :] = 1.0`) before the record at
column `j` is emitted.  Arguments: the group's layer/row/column rows,
the negativity of the flag, the remaining iteration count, the current
column `j`, and the current factor row; returns the emitted lines and
the final factor row. -/
def writeCellRecs (lr rr cr : List Int) (neg : Bool) :
    Nat → Nat → List Rat → Option (List Line × List Rat)
  | 0, _, fr => some ([], fr)
  | Nat.succ n, j, fr => do
    let fr2 := if neg then List.replicate fr.length (1 : Rat) else fr
    let l ← lr[j]?
    let r ← rr[j]?
    let co ← cr[j]?
    let f ← fr2[j]?
    let p ← writeCellRecs lr rr cr neg n (j + 1) fr2
    some (Line.cellRecord l r co f :: p.1, p.2)

/-- The outer loop `for i in range(nqfb)` of `write_file`, threading the
global cursor `c` (never reset between groups) and the factor array
(mutated in place by the negative-flag branch).  Arguments: remaining
group count, current group index `i`, cursor, factor array; returns the
emitted lines, the final cursor and the final factor array. -/
def writeGroups (st : ModflowFlwob) :
    Nat → Nat → Nat → List (List Rat) → Option (List Line × Nat × List (List Rat))
  | 0, _, c, fac => some ([], c, fac)
  | Nat.succ n, i, c, fac => do
    let nob ← st.nqobfb[i]?
    let ncl ← st.nqclfb[i]?
    let po ← writeObsRecs st.obsnam st.irefsp st.toffset st.flwobs nob.toNat c
    let lr ← st.layer[i]?
    let rr ← st.row[i]?
    let cr ← st.column[i]?
    let fr ← fac[i]?
    let pc ← writeCellRecs lr rr cr (decide (ncl < 0)) ncl.natAbs 0 fr
    let pg ← writeGroups st n (i + 1) po.2 (fac.set i pc.2)
    some (Line.groupHeader nob ncl :: (po.1 ++ pc.1 ++ pg.1), pg.2)

/-- The instruction-file loop `for i in range(0, nqtfb)`: one bare
observation name per line, read by index from `obsnam` (an out-of-range
read is an `IndexError`, hence `none`). -/
def insNames (obsnam : List String) : Nat → Nat → Option (List InsLine)
  | 0, _ => some []
  | Nat.succ n, i => do
    let nm ← obsnam[i]?
    let rest ← insNames obsnam n (i + 1)
    some (InsLine.nam nm :: rest)

/-- The path of the instruction file: `sfname = self.fn_path; sfname += '_ins'`. -/
def instructionPath (st : ModflowFlwob) : String := st.fn_path ++ "_ins"

/-- `ModflowFlwob.write_file`: the heading, the four-field header line,
the `tomultfb` line, the groups (sections 3-5), then the instruction
file (`jif @`, the `StandardFile 0 1 nqtfb` directive and the `nqtfb`
observation names).  Returns the primary file lines, the instruction
file lines, and the instance state after the call (only the factor
array may have changed). -/
def write_file (st : ModflowFlwob) :
    Option (List Line × List InsLine × ModflowFlwob) := do
  let pg ← writeGroups st st.nqfb 0 0 st.factor
  let names ← insNames st.obsnam st.nqtfb 0
  some (Line.heading st.heading ::
          Line.header st.nqfb st.nqcfb st.nqtfb st.iufbobsv ::
          Line.tomult st.tomultfb :: pg.1,
        InsLine.marker :: InsLine.standardFile st.nqtfb :: names,
        { st with factor := pg.2.2 })


/-- The observation records the global cursor produces: a run of `n`
records starting at cursor `c`, record `k` reading index `c + k` of each
of the four flattened arrays. -/
def obsStream (obsnam : List String) (irefsp : List Int)
    (toffset flwobs : List Rat) : Nat → Nat → List Line
  | _, 0 => []
  | c, Nat.succ n =>
    Line.obsRecord (obsnam.getD c "") (irefsp.getD c 0)
        (toffset.getD c 0) (flwobs.getD c 0) ::
      obsStream obsnam irefsp toffset flwobs (c + 1) n

/-- The cell records of one group: a run of `n` records starting at
column `j`; a negative group flag makes every emitted factor `1`. -/
def cellStream (lr rr cr : List Int) (fr : List Rat) (neg : Bool) :
    Nat → Nat → List Line
  | _, 0 => []
  | j, Nat.succ n =>
    Line.cellRecord (lr.getD j 0) (rr.getD j 0) (cr.getD j 0)
        (if neg then 1 else fr.getD j 0) ::
      cellStream lr rr cr fr neg (j + 1) n

/-- Sum of `nqobfb[i], …, nqobfb[i+n-1]` as iteration counts
(Python `range` of a negative count is empty, hence `toNat`). -/
def sumObsFrom (l : List Int) : Nat → Nat → Nat
  | _, 0 => 0
  | i, Nat.succ n => (l.getD i 0).toNat + sumObsFrom l (i + 1) n

/-- Sum of `abs(nqclfb[i]), …, abs(nqclfb[i+n-1])`. -/
def sumCellFrom (l : List Int) : Nat → Nat → Nat
  | _, 0 => 0
  | i, Nat.succ n => (l.getD i 0).natAbs + sumCellFrom l (i + 1) n

/-- The lines sections 3-5 produce for groups `i, …, i+n-1` with the
cursor at `c`: the denotation the main theorem proves `writeGroups`
equal to. -/
def groupLinesSpec (st : ModflowFlwob) : Nat → Nat → Nat → List Line
  | 0, _, _ => []
  | Nat.succ n, i, c =>
    Line.groupHeader (st.nqobfb.getD i 0) (st.nqclfb.getD i 0) ::
      (obsStream st.obsnam st.irefsp st.toffset st.flwobs c
          (st.nqobfb.getD i 0).toNat ++
        cellStream (st.layer.getD i []) (st.row.getD i [])
          (st.column.getD i []) (st.factor.getD i [])
          (decide (st.nqclfb.getD i 0 < 0)) 0 (st.nqclfb.getD i 0).natAbs ++
        groupLinesSpec st n (i + 1) (c + (st.nqobfb.getD i 0).toNat))

/-- The factor array after the loop over groups `i, …, i+n-1`: the row
of every group with a negative flag is replaced by ones. -/
def facAfterAux (st : ModflowFlwob) : Nat → Nat → List (List Rat) → List (List Rat)
  | 0, _, fac => fac
  | Nat.succ n, i, fac =>
    facAfterAux st n (i + 1)
      (fac.set i
        (if st.nqclfb.getD i 0 < 0 then
          List.replicate (fac.getD i []).length (1 : Rat)
        else fac.getD i []))

/-- The names section of the instruction file: `n` bare observation
names read from index `i` on. -/
def nameStream (obsnam : List String) : Nat → Nat → List InsLine
  | _, 0 => []
  | i, Nat.succ n => InsLine.nam (obsnam.getD i "") :: nameStream obsnam (i + 1) n

/-- The full primary-file line list `write_file` produces on a valid
state. -/
def expectedPrim (st : ModflowFlwob) : List Line :=
  Line.heading st.heading ::
    Line.header st.nqfb st.nqcfb st.nqtfb st.iufbobsv ::
    Line.tomult st.tomultfb :: groupLinesSpec st st.nqfb 0 0

/-- The full instruction-file line list `write_file` produces on a valid
state. -/
def expectedIns (st : ModflowFlwob) : List InsLine :=
  InsLine.marker :: InsLine.standardFile st.nqtfb :: nameStream st.obsnam 0 st.nqtfb

/-- The observation-record lines of an output, in emission order. -/
def obsRecordsOf (lines : List Line) : List Line :=
  lines.filter (fun l => match l with
    | Line.obsRecord _ _ _ _ => true
    | _ => false)

/-- The cell-record lines of an output, in emission order. -/
def cellRecordsOf (lines : List Line) : List Line :=
  lines.filter (fun l => match l with
    | Line.cellRecord _ _ _ _ => true
    | _ => false)

/-- The observation name a primary-file line carries. -/
def nameOfLine : Line → String
  | Line.obsRecord nm _ _ _ => nm
  | _ => ""

/-- The shape invariant a docstring-conformant construction establishes:
per-group arrays of length `nqfb`, flattened arrays covering `nqtfb`
records, non-negative observation counts summing to `nqtfb` (the
validity invariant `sum(nqobfb) == nqtfb`), and dense rows wide enough
for every group's `abs(nqclfb[i])` cells. -/
def Valid (st : ModflowFlwob) : Prop :=
  st.nqobfb.length = st.nqfb ∧
  st.nqclfb.length = st.nqfb ∧
  st.layer.length = st.nqfb ∧
  st.row.length = st.nqfb ∧
  st.column.length = st.nqfb ∧
  st.factor.length = st.nqfb ∧
  st.nqtfb ≤ st.obsnam.length ∧
  st.nqtfb ≤ st.irefsp.length ∧
  st.nqtfb ≤ st.toffset.length ∧
  st.nqtfb ≤ st.flwobs.length ∧
  (∀ x ∈ st.nqobfb, 0 ≤ x) ∧
  (st.nqobfb.map Int.toNat).sum = st.nqtfb ∧
  (∀ i < st.nqfb,
    (st.nqclfb.getD i 0).natAbs ≤ (st.layer.getD i []).length ∧
    (st.nqclfb.getD i 0).natAbs ≤ (st.row.getD i []).length ∧
    (st.nqclfb.getD i 0).natAbs ≤ (st.column.getD i []).length ∧
    (st.nqclfb.getD i 0).natAbs ≤ (st.factor.getD i []).length)

instance decValid (st : ModflowFlwob) : Decidable (Valid st) := by
  unfold Valid
  infer_instance

/-- A small valid two-group encoder state (group observation counts
`[2, 1]`, group size flags `[2, -3]`) used to instantiate the
hypotheses of the write theorems. -/
def stA : ModflowFlwob :=
  { fn_path := "model.chob", name := ["CHOB", "DATA"],
    extension := ["chob", "obc"], unitnumber := [40, 140],
    url := "chob.htm", heading := "# CHOB for MODFLOW, generated by Flopy.",
    nqfb := 2, nqcfb := 5, nqtfb := 3, iufbobsv := 140, tomultfb := 1,
    nqobfb := [2, 1], nqclfb := [2, -3], obsnam := ["o1", "o2", "o3"],
    irefsp := [1, 1, 2], toffset := [0, 1, 2], flwobs := [4, 5, 6],
    layer := [[1, 1, 0], [1, 2, 2]], row := [[1, 2, 0], [3, 4, 5]],
    column := [[1, 2, 0], [6, 7, 8]], factor := [[2, 2, 0], [1, 5, 9]] }

/-- A one-group encoder state with a negative size flag, small enough to
evaluate `write_file` on it inside the kernel. -/
def stB : ModflowFlwob :=
  { fn_path := "m.chob", name := ["CHOB", "DATA"], extension := ["chob", "obc"],
    unitnumber := [40, 140], url := "chob.htm",
    heading := "# CHOB for MODFLOW, generated by Flopy.",
    nqfb := 1, nqcfb := 1, nqtfb := 1, iufbobsv := 140, tomultfb := 1,
    nqobfb := [1], nqclfb := [-1], obsnam := ["o1"], irefsp := [1],
    toffset := [0], flwobs := [2], layer := [[1]], row := [[2]],
    column := [[3]], factor := [[5]] }

/-- The primary-file lines `write_file` emits for `stB`. -/
def primB : List Line :=
  [Line.heading "# CHOB for MODFLOW, generated by Flopy.",
   Line.header 1 1 1 140, Line.tomult 1, Line.groupHeader 1 (-1),
   Line.obsRecord "o1" 1 0 2, Line.cellRecord 1 2 3 1]

/-- The instruction-file lines `write_file` emits for `stB`. -/
def insB : List InsLine :=
  [InsLine.marker, InsLine.standardFile 1, InsLine.nam "o1"]

/-- The metadata of the `CHD` branch under the default tables. -/
def chdMetaV : FlowtypeMeta :=
  { name := ["CHOB", "DATA"], extension := ["chob", "obc"],
    unitnumber := [40, 140], iufbobsv := 140, url := "chob.htm",
    heading := "# CHOB for MODFLOW, generated by Flopy." }

/-- A docstring-conformant construction input whose single group has the
negative size flag `-2` (so its ragged rows have `abs(-2) = 2` cells):
the width computation `max(nqclfb)` yields `-2` and `np.zeros` raises. -/
def a4 : FlwobInput :=
  { fn_path := "model.chob", nqfb := 1, nqcfb := 2, nqtfb := 0, iufbobsv := 0,
    tomultfb := 1, nqobfb := [0], nqclfb := [-2], obsnam := [], irefsp := [],
    toffset := [], flwobs := [], layer := [[1, 1]], row := [[1, 2]],
    column := [[1, 2]], factor := [[1, 1]], flowtype := "CHD",
    extension := defaultExtension, unitnumber := defaultUnitnumber }

/-- A well-shaped construction input with the unrecognized tag `XYZ`. -/
def a7 : FlwobInput :=
  { fn_path := "model.chob", nqfb := 1, nqcfb := 1, nqtfb := 1, iufbobsv := 0,
    tomultfb := 1, nqobfb := [1], nqclfb := [1], obsnam := ["o1"],
    irefsp := [1], toffset := [0], flwobs := [1], layer := [[1]],
    row := [[1]], column := [[1]], factor := [[1]], flowtype := "XYZ",
    extension := defaultExtension, unitnumber := defaultUnitnumber }

/-- A construction input violating `sum(nqobfb) == nqtfb`
(`nqobfb = [2]` but `nqtfb = 1`); every per-array length check that the
constructor does perform (by NumPy broadcasting) passes. -/
def a8 : FlwobInput :=
  { fn_path := "model.chob", nqfb := 1, nqcfb := 1, nqtfb := 1, iufbobsv := 0,
    tomultfb := 1, nqobfb := [2], nqclfb := [1], obsnam := ["o1"],
    irefsp := [1], toffset := [0], flwobs := [1], layer := [[1]],
    row := [[1]], column := [[1]], factor := [[1]], flowtype := "CHD",
    extension := defaultExtension, unitnumber := defaultUnitnumber }

/-- A construction input with the documented empty-list defaults for all
array parameters and a recognized tag. -/
def a10 : FlwobInput :=
  { fn_path := "model.chob", nqfb := 0, nqcfb := 0, nqtfb := 0, iufbobsv := 0,
    tomultfb := 1, nqobfb := [], nqclfb := [], obsnam := [], irefsp := [],
    toffset := [], flwobs := [], layer := [], row := [], column := [],
    factor := [], flowtype := "CHD", extension := defaultExtension,
    unitnumber := defaultUnitnumber }

/-- A valid construction input for the boundary-type selection theorem. -/
def aW : FlwobInput :=
  { fn_path := "m", nqfb := 1, nqcfb := 1, nqtfb := 1, iufbobsv := 0,
    tomultfb := 1, nqobfb := [1], nqclfb := [1], obsnam := ["o1"],
    irefsp := [1], toffset := [0], flwobs := [1], layer := [[1]],
    row := [[1]], column := [[1]], factor := [[1]], flowtype := "chd ",
    extension := defaultExtension, unitnumber := defaultUnitnumber }

/-- The state `flwobInit` constructs from `aW`. -/
def stW6 : ModflowFlwob :=
  { fn_path := "m", name := ["CHOB", "DATA"], extension := ["chob", "obc"],
    unitnumber := [40, 140], url := "chob.htm",
    heading := "# CHOB for MODFLOW, generated by Flopy.",
    nqfb := 1, nqcfb := 1, nqtfb := 1, iufbobsv := 140, tomultfb := 1,
    nqobfb := [1], nqclfb := [1], obsnam := ["o1"], irefsp := [1],
    toffset := [0], flwobs := [1], layer := [[1]], row := [[1]],
    column := [[1]], factor := [[1]] }

theorem getElem?_eq_some_getD {α : Type} (l : List α) (i : Nat) (d : α)
    (h : i < l.length) : l[i]? = some (l.getD i d) := by
  rw [List.getElem?_eq_getElem h, List.getD_eq_getElem?_getD,
    List.getElem?_eq_getElem h]
  rfl

theorem getD_of_getElem?_eq_some {α : Type} {l : List α} {i : Nat} {a : α}
    (d : α) (h : l[i]? = some a) : l.getD i d = a := by
  rw [List.getD_eq_getElem?_getD, h]
  rfl

theorem lt_length_of_getElem?_eq_some {α : Type} {l : List α} {i : Nat}
    {a : α} (h : l[i]? = some a) : i < l.length := by
  rcases List.getElem?_eq_some_iff.mp h with ⟨hlt, _⟩
  exact hlt

theorem set_eq_self_of_getElem?_eq_some {α : Type} {l : List α} {i : Nat}
    {a : α} (h : l[i]? = some a) : l.set i a = l := by
  apply List.ext_getElem?
  intro k
  by_cases hk : i = k
  · subst hk
    rw [List.getElem?_set_self (lt_length_of_getElem?_eq_some h)]
    exact h.symm
  · exact List.getElem?_set_ne hk

theorem getD_set_ne {α : Type} (l : List α) {i k : Nat} (a d : α)
    (h : i ≠ k) : (l.set i a).getD k d = l.getD k d := by
  rw [List.getD_eq_getElem?_getD, List.getD_eq_getElem?_getD,
    List.getElem?_set_ne h]

theorem writeObsRecs_eq (obsnam : List String) (irefsp : List Int)
    (toffset flwobs : List Rat) (n : Nat) :
    ∀ (c : Nat), c + n ≤ obsnam.length → c + n ≤ irefsp.length →
      c + n ≤ toffset.length → c + n ≤ flwobs.length →
      writeObsRecs obsnam irefsp toffset flwobs n c =
        some (obsStream obsnam irefsp toffset flwobs c n, c + n) := by
  induction n with
  | zero =>
    intro c _ _ _ _
    simp [writeObsRecs, obsStream]
  | succ n ih =>
    intro c h1 h2 h3 h4
    rw [writeObsRecs,
      getElem?_eq_some_getD obsnam c "" (by omega),
      getElem?_eq_some_getD irefsp c 0 (by omega),
      getElem?_eq_some_getD toffset c 0 (by omega),
      getElem?_eq_some_getD flwobs c 0 (by omega)]
    simp only [Option.bind_eq_bind, Option.some_bind]
    rw [ih (c + 1) (by omega) (by omega) (by omega) (by omega)]
    simp only [Option.some_bind, obsStream]
    rw [show c + 1 + n = c + (n + 1) from by omega]

theorem writeCellRecs_eq_false (lr rr cr : List Int) (n : Nat) :
    ∀ (j : Nat) (fr : List Rat), j + n ≤ lr.length → j + n ≤ rr.length →
      j + n ≤ cr.length → j + n ≤ fr.length →
      writeCellRecs lr rr cr false n j fr =
        some (cellStream lr rr cr fr false j n, fr) := by
  induction n with
  | zero =>
    intro j fr _ _ _ _
    simp [writeCellRecs, cellStream]
  | succ n ih =>
    intro j fr h1 h2 h3 h4
    rw [writeCellRecs]
    simp only [Bool.false_eq_true, if_false]
    rw [getElem?_eq_some_getD lr j 0 (by omega),
      getElem?_eq_some_getD rr j 0 (by omega),
      getElem?_eq_some_getD cr j 0 (by omega),
      getElem?_eq_some_getD fr j 0 (by omega)]
    simp only [Option.bind_eq_bind, Option.some_bind]
    rw [ih (j + 1) fr (by omega) (by omega) (by omega) (by omega)]
    simp only [Option.some_bind, cellStream, Bool.false_eq_true, if_false]

theorem cellStream_true_fr (lr rr cr : List Int) (fr fr2 : List Rat) :
    ∀ (n j : Nat),
      cellStream lr rr cr fr true j n = cellStream lr rr cr fr2 true j n := by
  intro n
  induction n with
  | zero => intro j; rfl
  | succ n ih => intro j; simp [cellStream, if_true, ih (j + 1)]

theorem writeCellRecs_eq_true (lr rr cr : List Int) (n : Nat) :
    ∀ (j : Nat) (fr : List Rat), j + (n + 1) ≤ lr.length →
      j + (n + 1) ≤ rr.length → j + (n + 1) ≤ cr.length →
      j + (n + 1) ≤ fr.length →
      writeCellRecs lr rr cr true (n + 1) j fr =
        some (cellStream lr rr cr fr true j (n + 1),
          List.replicate fr.length (1 : Rat)) := by
  induction n with
  | zero =>
    intro j fr h1 h2 h3 h4
    rw [writeCellRecs]
    simp only [if_true]
    rw [getElem?_eq_some_getD lr j 0 (by omega),
      getElem?_eq_some_getD rr j 0 (by omega),
      getElem?_eq_some_getD cr j 0 (by omega)]
    rw [List.getElem?_replicate, if_pos (show j < fr.length from by omega)]
    simp only [Option.bind_eq_bind, Option.some_bind]
    rw [writeCellRecs]
    simp only [Option.some_bind, cellStream, if_true]
  | succ n ih =>
    intro j fr h1 h2 h3 h4
    rw [writeCellRecs]
    simp only [if_true]
    rw [getElem?_eq_some_getD lr j 0 (by omega),
      getElem?_eq_some_getD rr j 0 (by omega),
      getElem?_eq_some_getD cr j 0 (by omega)]
    rw [List.getElem?_replicate, if_pos (show j < fr.length from by omega)]
    simp only [Option.bind_eq_bind, Option.some_bind]
    rw [ih (j + 1) (List.replicate fr.length 1) (by omega) (by omega)
      (by omega) (by rw [List.length_replicate]; omega)]
    simp only [Option.some_bind, List.length_replicate]
    rw [cellStream_true_fr lr rr cr (List.replicate fr.length 1) fr (n + 1)
      (j + 1)]
    simp only [cellStream, if_true]

theorem writeGroups_eq (st : ModflowFlwob) (hv : Valid st) (n : Nat) :
    ∀ (i c : Nat) (fac : List (List Rat)),
      i + n ≤ st.nqfb →
      c + sumObsFrom st.nqobfb i n ≤ st.nqtfb →
      fac.length = st.factor.length →
      (∀ k, i ≤ k → fac.getD k [] = st.factor.getD k []) →
      writeGroups st n i c fac =
        some (groupLinesSpec st n i c, c + sumObsFrom st.nqobfb i n,
          facAfterAux st n i fac) := by
  obtain ⟨hnqob, hnqcl, hlay, hrow, hcol, hfacl, hobs, hir, hto, hfl,
    hpos, hsum, hwid⟩ := hv
  induction n with
  | zero =>
    intro i c fac _ _ _ _
    simp [writeGroups, groupLinesSpec, sumObsFrom, facAfterAux]
  | succ n ih =>
    intro i c fac hin hc hlen hfr
    have hi : i < st.nqfb := by omega
    simp only [sumObsFrom] at hc
    rw [writeGroups,
      getElem?_eq_some_getD st.nqobfb i 0 (by omega),
      getElem?_eq_some_getD st.nqclfb i 0 (by omega)]
    simp only [Option.bind_eq_bind, Option.some_bind]
    rw [writeObsRecs_eq st.obsnam st.irefsp st.toffset st.flwobs
      (st.nqobfb.getD i 0).toNat c (by omega) (by omega) (by omega) (by omega)]
    simp only [Option.some_bind]
    rw [getElem?_eq_some_getD st.layer i [] (by omega),
      getElem?_eq_some_getD st.row i [] (by omega),
      getElem?_eq_some_getD st.column i [] (by omega),
      getElem?_eq_some_getD fac i [] (by rw [hlen]; omega)]
    simp only [Option.some_bind]
    have hfri : fac.getD i [] = st.factor.getD i [] := hfr i (le_refl i)
    obtain ⟨hw1, hw2, hw3, hw4⟩ := hwid i hi
    have hrec : ∀ fr2 : List Rat,
        writeGroups st n (i + 1) (c + (st.nqobfb.getD i 0).toNat)
            (fac.set i fr2) =
          some (groupLinesSpec st n (i + 1) (c + (st.nqobfb.getD i 0).toNat),
            c + (st.nqobfb.getD i 0).toNat + sumObsFrom st.nqobfb (i + 1) n,
            facAfterAux st n (i + 1) (fac.set i fr2)) := by
      intro fr2
      exact ih (i + 1) (c + (st.nqobfb.getD i 0).toNat) (fac.set i fr2)
        (by omega) (by omega) (by rw [List.length_set]; exact hlen)
        (fun k hk => by
          rw [getD_set_ne fac _ [] (by omega)]
          exact hfr k (by omega))
    by_cases hneg : st.nqclfb.getD i 0 < 0
    · have hd : decide (st.nqclfb.getD i 0 < 0) = true :=
        decide_eq_true hneg
      obtain ⟨m, hm⟩ : ∃ m, (st.nqclfb.getD i 0).natAbs = m + 1 :=
        ⟨(st.nqclfb.getD i 0).natAbs - 1, by omega⟩
      rw [hd, hm,
        writeCellRecs_eq_true (st.layer.getD i []) (st.row.getD i [])
          (st.column.getD i []) m 0 (fac.getD i []) (by omega) (by omega)
          (by omega) (by rw [hfri]; omega)]
      simp only [Option.some_bind]
      rw [hrec (List.replicate (fac.getD i []).length 1)]
      simp only [Option.some_bind]
      conv_rhs => rw [groupLinesSpec, facAfterAux, sumObsFrom]
      rw [hd, hm, if_pos hneg, ← hfri, Nat.add_assoc]
    · have hd : decide (st.nqclfb.getD i 0 < 0) = false :=
        decide_eq_false hneg
      rw [hd,
        writeCellRecs_eq_false (st.layer.getD i []) (st.row.getD i [])
          (st.column.getD i []) (st.nqclfb.getD i 0).natAbs 0
          (fac.getD i []) (by omega) (by omega) (by omega)
          (by rw [hfri]; omega)]
      simp only [Option.some_bind]
      rw [hrec (fac.getD i [])]
      simp only [Option.some_bind]
      conv_rhs => rw [groupLinesSpec, facAfterAux, sumObsFrom]
      rw [hd, if_neg hneg, ← hfri, Nat.add_assoc]

theorem insNames_eq (obsnam : List String) (n : Nat) :
    ∀ (i : Nat), i + n ≤ obsnam.length →
      insNames obsnam n i = some (nameStream obsnam i n) := by
  induction n with
  | zero =>
    intro i _
    simp [insNames, nameStream]
  | succ n ih =>
    intro i h
    rw [insNames, getElem?_eq_some_getD obsnam i "" (by omega)]
    simp only [Option.bind_eq_bind, Option.some_bind]
    rw [ih (i + 1) (by omega)]
    simp only [Option.some_bind, nameStream]

theorem sumObsFrom_shift (x : Int) (t : List Int) (n : Nat) :
    ∀ (i : Nat), sumObsFrom (x :: t) (i + 1) n = sumObsFrom t i n := by
  induction n with
  | zero => intro i; rfl
  | succ n ih => intro i; simp [sumObsFrom, List.getD_cons_succ, ih (i + 1)]

theorem sumObsFrom_all (l : List Int) :
    sumObsFrom l 0 l.length = (l.map Int.toNat).sum := by
  induction l with
  | nil => rfl
  | cons x t ih =>
    simp [sumObsFrom, List.getD_cons_zero, sumObsFrom_shift, ih]

theorem sumCellFrom_shift (x : Int) (t : List Int) (n : Nat) :
    ∀ (i : Nat), sumCellFrom (x :: t) (i + 1) n = sumCellFrom t i n := by
  induction n with
  | zero => intro i; rfl
  | succ n ih => intro i; simp [sumCellFrom, List.getD_cons_succ, ih (i + 1)]

theorem sumCellFrom_all (l : List Int) :
    sumCellFrom l 0 l.length = (l.map Int.natAbs).sum := by
  induction l with
  | nil => rfl
  | cons x t ih =>
    simp [sumCellFrom, List.getD_cons_zero, sumCellFrom_shift, ih]

/-- On a valid state `write_file` succeeds and produces exactly the
denotations `expectedPrim` / `expectedIns`, mutating only the factor
array (negative-flag rows replaced by ones). -/
theorem write_file_spec (st : ModflowFlwob) (hv : Valid st) :
    write_file st = some (expectedPrim st, expectedIns st,
      { st with factor := facAfterAux st st.nqfb 0 st.factor }) := by
  have hnqob := hv.1
  have hobs := hv.2.2.2.2.2.2.1
  have hsum := hv.2.2.2.2.2.2.2.2.2.2.2.1
  have hall : sumObsFrom st.nqobfb 0 st.nqfb = st.nqtfb := by
    rw [← hnqob, sumObsFrom_all, hsum]
  rw [write_file,
    writeGroups_eq st hv st.nqfb 0 0 st.factor (by omega) (by omega) rfl
      (fun k _ => rfl)]
  simp only [Option.bind_eq_bind, Option.some_bind]
  rw [insNames_eq st.obsnam st.nqtfb 0 (by omega)]
  simp only [Option.some_bind, expectedPrim, expectedIns]

theorem obsRecordsOf_nil : obsRecordsOf [] = [] := rfl

theorem obsRecordsOf_cons_obs (nm : String) (a : Int) (t f : Rat)
    (l : List Line) :
    obsRecordsOf (Line.obsRecord nm a t f :: l) =
      Line.obsRecord nm a t f :: obsRecordsOf l := rfl

theorem obsRecordsOf_cons_group (a b : Int) (l : List Line) :
    obsRecordsOf (Line.groupHeader a b :: l) = obsRecordsOf l := rfl

theorem obsRecordsOf_cons_cell (a b c3 : Int) (f : Rat) (l : List Line) :
    obsRecordsOf (Line.cellRecord a b c3 f :: l) = obsRecordsOf l := rfl

theorem cellRecordsOf_nil : cellRecordsOf [] = [] := rfl

theorem cellRecordsOf_cons_obs (nm : String) (a : Int) (t f : Rat)
    (l : List Line) :
    cellRecordsOf (Line.obsRecord nm a t f :: l) = cellRecordsOf l := rfl

theorem cellRecordsOf_cons_group (a b : Int) (l : List Line) :
    cellRecordsOf (Line.groupHeader a b :: l) = cellRecordsOf l := rfl

theorem cellRecordsOf_cons_cell (a b c3 : Int) (f : Rat) (l : List Line) :
    cellRecordsOf (Line.cellRecord a b c3 f :: l) =
      Line.cellRecord a b c3 f :: cellRecordsOf l := rfl

theorem obsStream_length (nm : List String) (ir : List Int)
    (toff fl : List Rat) (n : Nat) :
    ∀ c, (obsStream nm ir toff fl c n).length = n := by
  induction n with
  | zero => intro c; rfl
  | succ n ih => intro c; simp [obsStream, ih (c + 1)]

theorem cellStream_length (lr rr cr : List Int) (fr : List Rat) (neg : Bool)
    (n : Nat) : ∀ j, (cellStream lr rr cr fr neg j n).length = n := by
  induction n with
  | zero => intro j; rfl
  | succ n ih => intro j; simp [cellStream, ih (j + 1)]

theorem obsStream_append (nm : List String) (ir : List Int)
    (toff fl : List Rat) (a : Nat) :
    ∀ (c b : Nat), obsStream nm ir toff fl c a ++
      obsStream nm ir toff fl (c + a) b = obsStream nm ir toff fl c (a + b) := by
  induction a with
  | zero =>
    intro c b
    simp [obsStream, Nat.zero_add]
  | succ a ih =>
    intro c b
    rw [show c + (a + 1) = (c + 1) + a from by omega,
      show a + 1 + b = (a + b) + 1 from by omega]
    simp only [obsStream, List.cons_append]
    rw [ih (c + 1) b]

theorem obsRecordsOf_obsStream (nm : List String) (ir : List Int)
    (toff fl : List Rat) (n : Nat) :
    ∀ c, obsRecordsOf (obsStream nm ir toff fl c n) =
      obsStream nm ir toff fl c n := by
  induction n with
  | zero => intro c; rfl
  | succ n ih =>
    intro c
    simp only [obsStream, obsRecordsOf_cons_obs]
    rw [ih (c + 1)]

theorem obsRecordsOf_cellStream (lr rr cr : List Int) (fr : List Rat)
    (neg : Bool) (n : Nat) :
    ∀ j, obsRecordsOf (cellStream lr rr cr fr neg j n) = [] := by
  induction n with
  | zero => intro j; rfl
  | succ n ih =>
    intro j
    simp only [cellStream, obsRecordsOf_cons_cell]
    exact ih (j + 1)

theorem cellRecordsOf_obsStream (nm : List String) (ir : List Int)
    (toff fl : List Rat) (n : Nat) :
    ∀ c, cellRecordsOf (obsStream nm ir toff fl c n) = [] := by
  induction n with
  | zero => intro c; rfl
  | succ n ih =>
    intro c
    simp only [obsStream, cellRecordsOf_cons_obs]
    exact ih (c + 1)

theorem cellRecordsOf_cellStream (lr rr cr : List Int) (fr : List Rat)
    (neg : Bool) (n : Nat) :
    ∀ j, cellRecordsOf (cellStream lr rr cr fr neg j n) =
      cellStream lr rr cr fr neg j n := by
  induction n with
  | zero => intro j; rfl
  | succ n ih =>
    intro j
    simp only [cellStream, cellRecordsOf_cons_cell]
    rw [ih (j + 1)]

theorem obsRecordsOf_append (l1 l2 : List Line) :
    obsRecordsOf (l1 ++ l2) = obsRecordsOf l1 ++ obsRecordsOf l2 :=
  List.filter_append l1 l2

theorem cellRecordsOf_append (l1 l2 : List Line) :
    cellRecordsOf (l1 ++ l2) = cellRecordsOf l1 ++ cellRecordsOf l2 :=
  List.filter_append l1 l2

theorem obsRecordsOf_groupLinesSpec (st : ModflowFlwob) (n : Nat) :
    ∀ (i c : Nat), obsRecordsOf (groupLinesSpec st n i c) =
      obsStream st.obsnam st.irefsp st.toffset st.flwobs c
        (sumObsFrom st.nqobfb i n) := by
  induction n with
  | zero => intro i c; rfl
  | succ n ih =>
    intro i c
    simp only [groupLinesSpec, obsRecordsOf_cons_group, obsRecordsOf_append,
      obsRecordsOf_obsStream, obsRecordsOf_cellStream, List.append_nil,
      ih (i + 1)]
    rw [obsStream_append]
    rfl

theorem cellRecordsOf_groupLinesSpec (st : ModflowFlwob) (n : Nat) :
    ∀ (i c : Nat), (cellRecordsOf (groupLinesSpec st n i c)).length =
      sumCellFrom st.nqclfb i n := by
  induction n with
  | zero => intro i c; rfl
  | succ n ih =>
    intro i c
    simp only [groupLinesSpec, cellRecordsOf_cons_group, cellRecordsOf_append,
      cellRecordsOf_obsStream, cellRecordsOf_cellStream, List.nil_append,
      List.length_append, cellStream_length, ih (i + 1)]
    rfl

theorem map_nameOf_obsStream (nm : List String) (ir : List Int)
    (toff fl : List Rat) (n : Nat) :
    ∀ c, (obsStream nm ir toff fl c n).map (fun l => InsLine.nam (nameOfLine l)) =
      nameStream nm c n := by
  induction n with
  | zero => intro c; rfl
  | succ n ih =>
    intro c
    simp only [obsStream, List.map_cons]
    rw [ih (c + 1)]
    rfl

theorem groupLinesSpec_decomp (st : ModflowFlwob) (n : Nat) :
    ∀ (k i c : Nat), k < n → ∃ pre suf,
      groupLinesSpec st n i c = pre ++
        cellStream (st.layer.getD (i + k) []) (st.row.getD (i + k) [])
          (st.column.getD (i + k) []) (st.factor.getD (i + k) [])
          (decide (st.nqclfb.getD (i + k) 0 < 0)) 0
          (st.nqclfb.getD (i + k) 0).natAbs ++ suf := by
  induction n with
  | zero => intro k i c hk; exact absurd hk (by omega)
  | succ n ih =>
    intro k i c hk
    cases k with
    | zero =>
      refine ⟨Line.groupHeader (st.nqobfb.getD i 0) (st.nqclfb.getD i 0) ::
        obsStream st.obsnam st.irefsp st.toffset st.flwobs c
          (st.nqobfb.getD i 0).toNat,
        groupLinesSpec st n (i + 1) (c + (st.nqobfb.getD i 0).toNat), ?_⟩
      simp [groupLinesSpec, List.cons_append, List.append_assoc]
    | succ k =>
      obtain ⟨pre, suf, heq⟩ :=
        ih k (i + 1) (c + (st.nqobfb.getD i 0).toNat) (by omega)
      refine ⟨Line.groupHeader (st.nqobfb.getD i 0) (st.nqclfb.getD i 0) ::
        (obsStream st.obsnam st.irefsp st.toffset st.flwobs c
            (st.nqobfb.getD i 0).toNat ++
          cellStream (st.layer.getD i []) (st.row.getD i [])
            (st.column.getD i []) (st.factor.getD i [])
            (decide (st.nqclfb.getD i 0 < 0)) 0
            (st.nqclfb.getD i 0).natAbs ++ pre), suf, ?_⟩
      rw [show i + (k + 1) = i + 1 + k from by omega]
      simp only [groupLinesSpec, List.cons_append, List.append_assoc]
      rw [heq]
      simp only [List.append_assoc]

theorem cellRecordsOf_groupLinesSpec_decomp (st : ModflowFlwob) (n : Nat) :
    ∀ (k i c : Nat), k < n → ∃ pre suf,
      cellRecordsOf (groupLinesSpec st n i c) = pre ++
        cellStream (st.layer.getD (i + k) []) (st.row.getD (i + k) [])
          (st.column.getD (i + k) []) (st.factor.getD (i + k) [])
          (decide (st.nqclfb.getD (i + k) 0 < 0)) 0
          (st.nqclfb.getD (i + k) 0).natAbs ++ suf ∧
      pre.length = sumCellFrom st.nqclfb i k := by
  induction n with
  | zero => intro k i c hk; exact absurd hk (by omega)
  | succ n ih =>
    intro k i c hk
    cases k with
    | zero =>
      refine ⟨[], cellRecordsOf (groupLinesSpec st n (i + 1)
        (c + (st.nqobfb.getD i 0).toNat)), ?_, rfl⟩
      simp only [groupLinesSpec, cellRecordsOf_cons_group,
        cellRecordsOf_append, cellRecordsOf_obsStream,
        cellRecordsOf_cellStream, List.nil_append, List.append_assoc,
        Nat.add_zero]
    | succ k =>
      obtain ⟨pre, suf, hdec, hlen⟩ :=
        ih k (i + 1) (c + (st.nqobfb.getD i 0).toNat) (by omega)
      refine ⟨cellStream (st.layer.getD i []) (st.row.getD i [])
          (st.column.getD i []) (st.factor.getD i [])
          (decide (st.nqclfb.getD i 0 < 0)) 0
          (st.nqclfb.getD i 0).natAbs ++ pre, suf, ?_, ?_⟩
      · rw [show i + (k + 1) = i + 1 + k from by omega]
        simp only [groupLinesSpec, cellRecordsOf_cons_group,
          cellRecordsOf_append, cellRecordsOf_obsStream,
          cellRecordsOf_cellStream, List.nil_append, List.append_assoc]
        rw [hdec]
        simp only [List.append_assoc]
      · simp only [List.length_append, cellStream_length, hlen]
        rfl

theorem cellStream_true_mem (lr rr cr : List Int) (fr : List Rat) (n : Nat) :
    ∀ j, ∀ l ∈ cellStream lr rr cr fr true j n,
      ∃ a b c3, l = Line.cellRecord a b c3 1 := by
  induction n with
  | zero => intro j l hl; simp [cellStream] at hl
  | succ n ih =>
    intro j l hl
    simp only [cellStream, if_true, List.mem_cons] at hl
    rcases hl with h | h
    · exact ⟨lr.getD j 0, rr.getD j 0, cr.getD j 0, h⟩
    · exact ih (j + 1) l h

theorem flwobCore_meta (meta : FlowtypeMeta) (a : FlwobInput)
    (st : ModflowFlwob) (h : flwobCore meta a = some st) :
    st.name = meta.name ∧ st.extension = meta.extension ∧
    st.unitnumber = meta.unitnumber ∧ st.iufbobsv = meta.iufbobsv ∧
    st.url = meta.url ∧ st.heading = meta.heading := by
  simp only [flwobCore, Option.bind_eq_bind, Option.bind_eq_some] at h
  obtain ⟨m, -, h⟩ := h
  split at h
  · simp only [Option.bind_eq_some] at h
    obtain ⟨x1, -, x2, -, x3, -, x4, -, x5, -, x6, -, x7, -, x8, -, x9, -,
      hfin⟩ := h
    simp only [Option.some.injEq] at hfin
    rw [← hfin]
    exact ⟨rfl, rfl, rfl, rfl, rfl, rfl⟩
  · exact absurd h (by simp)

theorem writeCellRecs_false_final (lr rr cr : List Int) (n : Nat) :
    ∀ (j : Nat) (fr ls_fr1 : List Rat) (ls : List Line),
      writeCellRecs lr rr cr false n j fr = some (ls, ls_fr1) →
      ls_fr1 = fr := by
  induction n with
  | zero =>
    intro j fr frE ls h
    simp only [writeCellRecs, Option.some.injEq, Prod.mk.injEq] at h
    exact h.2.symm
  | succ n ih =>
    intro j fr frE ls h
    rw [writeCellRecs] at h
    simp only [Bool.false_eq_true, if_false, Option.bind_eq_bind,
      Option.bind_eq_some] at h
    obtain ⟨l1, -, r1, -, c1, -, f1, -, p, hp, hfin⟩ := h
    simp only [Option.some.injEq, Prod.mk.injEq] at hfin
    rw [← hfin.2]
    exact ih (j + 1) fr p.2 p.1 hp

theorem writeCellRecs_true_final (lr rr cr : List Int) (n : Nat) :
    ∀ (j : Nat) (fr frE : List Rat) (ls : List Line),
      writeCellRecs lr rr cr true (n + 1) j fr = some (ls, frE) →
      frE = List.replicate fr.length (1 : Rat) := by
  induction n with
  | zero =>
    intro j fr frE ls h
    rw [writeCellRecs] at h
    simp only [if_true, Option.bind_eq_bind, Option.bind_eq_some,
      writeCellRecs, Option.some.injEq, Prod.mk.injEq] at h
    obtain ⟨l1, -, r1, -, c1, -, f1, -, p, hp, -, hfin⟩ := h
    rw [← hfin, ← hp]
  | succ n ih =>
    intro j fr frE ls h
    rw [writeCellRecs] at h
    simp only [if_true, Option.bind_eq_bind, Option.bind_eq_some] at h
    obtain ⟨l1, -, r1, -, c1, -, f1, -, p, hp, hfin⟩ := h
    simp only [Option.some.injEq, Prod.mk.injEq] at hfin
    rw [← hfin.2]
    have := ih (j + 1) (List.replicate fr.length 1) p.2 p.1 hp
    rw [this, List.length_replicate]

theorem writeCellRecs_idem (lr rr cr : List Int) (neg : Bool) (n : Nat)
    (j : Nat) (fr frE : List Rat) (ls : List Line)
    (h : writeCellRecs lr rr cr neg n j fr = some (ls, frE)) :
    writeCellRecs lr rr cr neg n j frE = some (ls, frE) := by
  cases neg with
  | false =>
    have hE := writeCellRecs_false_final lr rr cr n j fr frE ls h
    subst hE
    exact h
  | true =>
    cases n with
    | zero =>
      simp only [writeCellRecs, Option.some.injEq, Prod.mk.injEq] at h ⊢
      exact ⟨h.1, trivial⟩
    | succ n =>
      have hE : frE = List.replicate fr.length 1 :=
        writeCellRecs_true_final lr rr cr n j fr frE ls h
      have hlen : frE.length = fr.length := by rw [hE, List.length_replicate]
      have hrep : List.replicate frE.length (1 : Rat) = frE := by
        rw [hlen, ← hE]
      rw [writeCellRecs] at h ⊢
      simp only [if_true] at h ⊢
      rw [hrep]
      rw [← hE] at h
      exact h

theorem writeGroups_frame (st : ModflowFlwob) (n : Nat) :
    ∀ (i c : Nat) (fac : List (List Rat)) (gl : List Line) (cf : Nat)
      (facE : List (List Rat)),
      writeGroups st n i c fac = some (gl, cf, facE) →
      facE.length = fac.length ∧ ∀ k, k < i → facE[k]? = fac[k]? := by
  induction n with
  | zero =>
    intro i c fac gl cf facE h
    simp only [writeGroups, Option.some.injEq, Prod.mk.injEq] at h
    rw [← h.2.2]
    exact ⟨rfl, fun k _ => rfl⟩
  | succ n ih =>
    intro i c fac gl cf facE h
    rw [writeGroups] at h
    simp only [Option.bind_eq_bind, Option.bind_eq_some] at h
    obtain ⟨nob, -, ncl, -, po, -, lr, -, rr, -, cr, -, fr, hfr, pc, -, pg,
      hpg, hfin⟩ := h
    simp only [Option.some.injEq] at hfin
    have hE : pg.2.2 = facE := congrArg (fun p => p.2.2) hfin
    obtain ⟨hlen, hframe⟩ :=
      ih (i + 1) po.2 (fac.set i pc.2) pg.1 pg.2.1 pg.2.2 hpg
    constructor
    · rw [← hE, hlen, List.length_set]
    · intro k hk
      rw [← hE, hframe k (by omega), List.getElem?_set_ne (by omega : i ≠ k)]

theorem writeGroups_idem (st : ModflowFlwob) (n : Nat) :
    ∀ (i c : Nat) (fac : List (List Rat)) (gl : List Line) (cf : Nat)
      (facE : List (List Rat)),
      writeGroups st n i c fac = some (gl, cf, facE) →
      writeGroups st n i c facE = some (gl, cf, facE) := by
  induction n with
  | zero =>
    intro i c fac gl cf facE h
    have h2 := h
    simp only [writeGroups, Option.some.injEq, Prod.mk.injEq] at h
    obtain ⟨-, -, h3⟩ := h
    subst h3
    exact h2
  | succ n ih =>
    intro i c fac gl cf facE h
    rw [writeGroups] at h ⊢
    simp only [Option.bind_eq_bind, Option.bind_eq_some] at h
    obtain ⟨nob, hnob, ncl, hncl, po, hpo, lr, hlr, rr, hrr, cr, hcr, fr,
      hfr, pc, hpc, pg, hpg, hfin⟩ := h
    simp only [Option.some.injEq] at hfin
    have hgl : Line.groupHeader nob ncl :: (po.1 ++ pc.1 ++ pg.1) = gl :=
      congrArg (fun p => p.1) hfin
    have hcf : pg.2.1 = cf := congrArg (fun p => p.2.1) hfin
    have hfacE : pg.2.2 = facE := congrArg (fun p => p.2.2) hfin
    obtain ⟨hlen, hframe⟩ :=
      writeGroups_frame st n (i + 1) po.2 (fac.set i pc.2) pg.1 pg.2.1
        pg.2.2 hpg
    have hiLt : i < fac.length := lt_length_of_getElem?_eq_some hfr
    have hfacEi : facE[i]? = some pc.2 := by
      rw [← hfacE, hframe i (by omega), List.getElem?_set_self hiLt]
    have hcell := writeCellRecs_idem lr rr cr (decide (ncl < 0)) ncl.natAbs
      0 fr pc.2 pc.1 hpc
    have hrecIdem :=
      ih (i + 1) po.2 (fac.set i pc.2) pg.1 pg.2.1 pg.2.2 hpg
    rw [hfacE] at hrecIdem
    rw [hnob, hncl]
    simp only [Option.bind_eq_bind, Option.some_bind]
    rw [hpo]
    simp only [Option.some_bind]
    rw [hlr, hrr, hcr, hfacEi]
    simp only [Option.some_bind]
    rw [hcell]
    simp only [Option.some_bind]
    rw [set_eq_self_of_getElem?_eq_some hfacEi, hrecIdem]
    simp only [Option.some_bind]
    rw [hgl, hcf]

theorem writeGroups_factor_congr (st : ModflowFlwob) (f2 : List (List Rat))
    (n : Nat) :
    ∀ (i c : Nat) (fac : List (List Rat)),
      writeGroups { st with factor := f2 } n i c fac =
        writeGroups st n i c fac := by
  induction n with
  | zero => intro i c fac; rfl
  | succ n ih => intro i c fac; simp only [writeGroups, ih]

theorem nameStream_length (nm : List String) (n : Nat) :
    ∀ i, (nameStream nm i n).length = n := by
  induction n with
  | zero => intro i; rfl
  | succ n ih => intro i; simp [nameStream, ih (i + 1)]

theorem valid_sumObsFrom (st : ModflowFlwob) (hv : Valid st) :
    sumObsFrom st.nqobfb 0 st.nqfb = st.nqtfb := by
  obtain ⟨hnqob, -, -, -, -, -, -, -, -, -, -, hsum, -⟩ := hv
  rw [← hnqob, sumObsFrom_all, hsum]

theorem valid_sumCellFrom (st : ModflowFlwob) (hv : Valid st) :
    sumCellFrom st.nqclfb 0 st.nqfb = (st.nqclfb.map Int.natAbs).sum := by
  obtain ⟨-, hnqcl, -⟩ := hv
  rw [← hnqcl, sumCellFrom_all]

theorem obsRecordsOf_expectedPrim (st : ModflowFlwob) (hv : Valid st) :
    obsRecordsOf (expectedPrim st) =
      obsStream st.obsnam st.irefsp st.toffset st.flwobs 0 st.nqtfb := by
  have h1 : obsRecordsOf (expectedPrim st) =
      obsRecordsOf (groupLinesSpec st st.nqfb 0 0) := rfl
  rw [h1, obsRecordsOf_groupLinesSpec, valid_sumObsFrom st hv]

/-- C1: on every valid construction (per-group and flattened arrays of
the documented shapes, `sum(nqobfb) == nqtfb`), `write_file` succeeds
and the primary file holds exactly `nqtfb` observation-record lines,
which read the four flattened arrays strictly sequentially from index 0
(record `k` reads index `k`); the single global cursor of the group loop
ends at exactly `sum(nqobfb)`, never being reset between groups. -/
theorem flwob_C1 (st : ModflowFlwob) (hv : Valid st) :
    ∃ prim ins st2, write_file st = some (prim, ins, st2) ∧
      obsRecordsOf prim =
        obsStream st.obsnam st.irefsp st.toffset st.flwobs 0 st.nqtfb ∧
      (obsRecordsOf prim).length = st.nqtfb ∧
      ∃ gl fac2, writeGroups st st.nqfb 0 0 st.factor =
        some (gl, (st.nqobfb.map Int.toNat).sum, fac2) := by
  refine ⟨expectedPrim st, expectedIns st, _, write_file_spec st hv,
    obsRecordsOf_expectedPrim st hv, ?_, ?_⟩
  · rw [obsRecordsOf_expectedPrim st hv, obsStream_length]
  · refine ⟨groupLinesSpec st st.nqfb 0 0, facAfterAux st st.nqfb 0 st.factor, ?_⟩
    have h := writeGroups_eq st hv st.nqfb 0 0 st.factor (by omega)
      (by rw [valid_sumObsFrom st hv]; omega) rfl (fun k _ => rfl)
    rw [h, Nat.zero_add, valid_sumObsFrom st hv]
    obtain ⟨hnqob, -, -, -, -, -, -, -, -, -, -, hsum, -⟩ := hv
    rw [hsum]

/-- C1 witness: the theorem instantiated at the concrete valid state
`stA` with `nqobfb = [2, 1]` and `nqtfb = 3`. -/
theorem flwob_C1_witness :
    Valid stA ∧
    (∃ prim ins st2, write_file stA = some (prim, ins, st2) ∧
      obsRecordsOf prim =
        obsStream stA.obsnam stA.irefsp stA.toffset stA.flwobs 0 stA.nqtfb ∧
      (obsRecordsOf prim).length = stA.nqtfb ∧
      ∃ gl fac2, writeGroups stA stA.nqfb 0 0 stA.factor =
        some (gl, (stA.nqobfb.map Int.toNat).sum, fac2)) :=
  ⟨by decide, flwob_C1 stA (by decide)⟩

/-- C2: on every valid construction the instruction file sits at the
primary path plus the literal `_ins` suffix, starts with the marker line
and the `StandardFile 0 1 nqtfb` directive, and then holds exactly
`nqtfb` bare observation names in the same order as the primary file's
flattened observation-record stream. -/
theorem flwob_C2 (st : ModflowFlwob) (hv : Valid st) :
    ∃ prim ins st2, write_file st = some (prim, ins, st2) ∧
      instructionPath st = st.fn_path ++ "_ins" ∧
      ins = InsLine.marker :: InsLine.standardFile st.nqtfb ::
        (obsRecordsOf prim).map (fun l => InsLine.nam (nameOfLine l)) ∧
      ins.length = 2 + st.nqtfb := by
  refine ⟨expectedPrim st, expectedIns st, _, write_file_spec st hv, rfl,
    ?_, ?_⟩
  · rw [obsRecordsOf_expectedPrim st hv, map_nameOf_obsStream]
    rfl
  · simp only [expectedIns, List.length_cons, nameStream_length]
    omega

/-- C2 witness: the theorem instantiated at `stA`, whose observation
names are `o1, o2, o3`. -/
theorem flwob_C2_witness :
    Valid stA ∧
    (∃ prim ins st2, write_file stA = some (prim, ins, st2) ∧
      instructionPath stA = stA.fn_path ++ "_ins" ∧
      ins = InsLine.marker :: InsLine.standardFile stA.nqtfb ::
        (obsRecordsOf prim).map (fun l => InsLine.nam (nameOfLine l)) ∧
      ins.length = 2 + stA.nqtfb) :=
  ⟨by decide, flwob_C2 stA (by decide)⟩

/-- C3: on every valid construction, a group `i` whose size flag
`nqclfb[i]` is negative contributes to the primary file a contiguous run
of exactly `abs(nqclfb[i])` cell-record lines whose factor field is `1`
in every record, whatever factor values the encoder stores for that
group. -/
theorem flwob_C3 (st : ModflowFlwob) (i : Nat) (ncl : Int) (hv : Valid st)
    (hi : st.nqclfb[i]? = some ncl) (hneg : ncl < 0) :
    ∃ prim ins st2 pre suf seg, write_file st = some (prim, ins, st2) ∧
      prim = pre ++ seg ++ suf ∧ seg.length = ncl.natAbs ∧
      ∀ l ∈ seg, ∃ a b c3, l = Line.cellRecord a b c3 1 := by
  have hnqcl : st.nqclfb.length = st.nqfb := hv.2.1
  have hiLt : i < st.nqfb := by
    rw [← hnqcl]
    exact lt_length_of_getElem?_eq_some hi
  have hgetD : st.nqclfb.getD i 0 = ncl := getD_of_getElem?_eq_some 0 hi
  obtain ⟨pre, suf, hdec⟩ := groupLinesSpec_decomp st st.nqfb i 0 0 hiLt
  simp only [Nat.zero_add, hgetD, decide_eq_true hneg] at hdec
  refine ⟨expectedPrim st, expectedIns st, _,
    Line.heading st.heading ::
      Line.header st.nqfb st.nqcfb st.nqtfb st.iufbobsv ::
      Line.tomult st.tomultfb :: pre, suf,
    cellStream (st.layer.getD i []) (st.row.getD i []) (st.column.getD i [])
      (st.factor.getD i []) true 0 ncl.natAbs,
    write_file_spec st hv, ?_, cellStream_length _ _ _ _ _ _ 0,
    cellStream_true_mem _ _ _ _ _ 0⟩
  simp only [expectedPrim, hdec, List.cons_append, List.append_assoc]

/-- C3 witness: the theorem instantiated at `stA`, whose second group
has flag `-3` and stored factors `[1, 5, 9]`. -/
theorem flwob_C3_witness :
    Valid stA ∧ stA.nqclfb[1]? = some (-3) ∧ ((-3 : Int) < 0) ∧
    (∃ prim ins st2 pre suf seg, write_file stA = some (prim, ins, st2) ∧
      prim = pre ++ seg ++ suf ∧ seg.length = (-3 : Int).natAbs ∧
      ∀ l ∈ seg, ∃ a b c3, l = Line.cellRecord a b c3 1) :=
  ⟨by decide, by decide, by decide,
    flwob_C3 stA 1 (-3) (by decide) (by decide) (by decide)⟩

/-- C5: on every valid construction the primary file holds, over the
whole file, exactly `sum(abs(nqclfb[i]))` cell-record lines — the
zero-padding of the dense storage never leaks — and group `i`
contributes exactly `abs(nqclfb[i])` of them: within the file's
cell-record stream, the records of group `i` are precisely the
`abs(nqclfb[i])` records built from that group's stored rows, starting
at offset `abs(nqclfb[0]) + … + abs(nqclfb[i-1])`. -/
theorem flwob_C5 (st : ModflowFlwob) (hv : Valid st) :
    ∃ prim ins st2, write_file st = some (prim, ins, st2) ∧
      (cellRecordsOf prim).length = (st.nqclfb.map Int.natAbs).sum ∧
      ∀ (i : Nat) (ncl : Int), st.nqclfb[i]? = some ncl →
        ∃ pre suf,
          cellRecordsOf prim = pre ++
            cellStream (st.layer.getD i []) (st.row.getD i [])
              (st.column.getD i []) (st.factor.getD i [])
              (decide (ncl < 0)) 0 ncl.natAbs ++ suf ∧
          pre.length = sumCellFrom st.nqclfb 0 i ∧
          (cellStream (st.layer.getD i []) (st.row.getD i [])
            (st.column.getD i []) (st.factor.getD i [])
            (decide (ncl < 0)) 0 ncl.natAbs).length = ncl.natAbs := by
  refine ⟨expectedPrim st, expectedIns st, _, write_file_spec st hv, ?_, ?_⟩
  · have h1 : cellRecordsOf (expectedPrim st) =
        cellRecordsOf (groupLinesSpec st st.nqfb 0 0) := rfl
    rw [h1, cellRecordsOf_groupLinesSpec, valid_sumCellFrom st hv]
  · intro i ncl hi
    have hnqcl : st.nqclfb.length = st.nqfb := hv.2.1
    have hiLt : i < st.nqfb := by
      rw [← hnqcl]
      exact lt_length_of_getElem?_eq_some hi
    have hgetD : st.nqclfb.getD i 0 = ncl := getD_of_getElem?_eq_some 0 hi
    obtain ⟨pre, suf, hdec, hlen⟩ :=
      cellRecordsOf_groupLinesSpec_decomp st st.nqfb i 0 0 hiLt
    simp only [Nat.zero_add, hgetD] at hdec
    refine ⟨pre, suf, ?_, hlen, cellStream_length _ _ _ _ _ _ 0⟩
    have h1 : cellRecordsOf (expectedPrim st) =
        cellRecordsOf (groupLinesSpec st st.nqfb 0 0) := rfl
    rw [h1, hdec]

/-- C5 witness: the theorem instantiated at `stA`, whose group sizes are
`[2, 3]` against a padded width of 3: its cell-record stream splits as 2
records for group 0 at offset 0, then 3 records for group 1 at
offset 2. -/
theorem flwob_C5_witness :
    Valid stA ∧
    (∃ prim ins st2, write_file stA = some (prim, ins, st2) ∧
      (cellRecordsOf prim).length = (stA.nqclfb.map Int.natAbs).sum ∧
      ∀ (i : Nat) (ncl : Int), stA.nqclfb[i]? = some ncl →
        ∃ pre suf,
          cellRecordsOf prim = pre ++
            cellStream (stA.layer.getD i []) (stA.row.getD i [])
              (stA.column.getD i []) (stA.factor.getD i [])
              (decide (ncl < 0)) 0 ncl.natAbs ++ suf ∧
          pre.length = sumCellFrom stA.nqclfb 0 i ∧
          (cellStream (stA.layer.getD i []) (stA.row.getD i [])
            (stA.column.getD i []) (stA.factor.getD i [])
            (decide (ncl < 0)) 0 ncl.natAbs).length = ncl.natAbs) :=
  ⟨by decide, flwob_C5 stA (by decide)⟩

/-- C9: any successful `write_file` call leaves the encoder in a state
on which a second call succeeds and produces the identical pair of
files and the identical state; moreover the first call changed nothing
of the encoder state except the factor array. -/
theorem flwob_C9 (st st2 : ModflowFlwob) (prim : List Line)
    (ins : List InsLine) (h : write_file st = some (prim, ins, st2)) :
    write_file st2 = some (prim, ins, st2) ∧
    st2 = { st with factor := st2.factor } := by
  rw [write_file] at h
  simp only [Option.bind_eq_bind, Option.bind_eq_some] at h
  obtain ⟨pg, hpg, names, hnames, hfin⟩ := h
  simp only [Option.some.injEq] at hfin
  have hprim : Line.heading st.heading ::
      Line.header st.nqfb st.nqcfb st.nqtfb st.iufbobsv ::
      Line.tomult st.tomultfb :: pg.1 = prim :=
    congrArg (fun p => p.1) hfin
  have hins : InsLine.marker :: InsLine.standardFile st.nqtfb :: names = ins :=
    congrArg (fun p => p.2.1) hfin
  have hst2 : { st with factor := pg.2.2 } = st2 :=
    congrArg (fun p => p.2.2) hfin
  constructor
  · rw [← hst2]
    rw [write_file]
    have hwg : writeGroups { st with factor := pg.2.2 } st.nqfb 0 0 pg.2.2 =
        some pg := by
      rw [writeGroups_factor_congr st pg.2.2 st.nqfb 0 0 pg.2.2]
      exact writeGroups_idem st st.nqfb 0 0 st.factor pg.1 pg.2.1 pg.2.2 hpg
    rw [show ({ st with factor := pg.2.2 } : ModflowFlwob).factor = pg.2.2
      from rfl, show ({ st with factor := pg.2.2 } : ModflowFlwob).nqfb =
      st.nqfb from rfl, hwg]
    simp only [Option.bind_eq_bind, Option.some_bind]
    rw [show ({ st with factor := pg.2.2 } : ModflowFlwob).obsnam =
      st.obsnam from rfl, show ({ st with factor := pg.2.2 } :
      ModflowFlwob).nqtfb = st.nqtfb from rfl, hnames]
    simp only [Option.some_bind]
    rw [← hprim, ← hins]
  · rw [← hst2]

/-- C9 witness: the theorem instantiated at the concrete state `stB`
(one group with a negative flag), whose first call yields `primB`,
`insB` and the state with the factor row set to ones. -/
theorem flwob_C9_witness :
    write_file stB = some (primB, insB, { stB with factor := [[1]] }) ∧
    (write_file { stB with factor := [[1]] } =
        some (primB, insB, { stB with factor := [[1]] }) ∧
      ({ stB with factor := [[1]] } : ModflowFlwob) =
        { stB with factor :=
          ({ stB with factor := [[1]] } : ModflowFlwob).factor }) :=
  ⟨by decide, flwob_C9 stB { stB with factor := [[1]] } primB insB (by decide)⟩

theorem selectFlowtype_xyz (extension : List String) (unitnumber : List Int) :
    selectFlowtype "XYZ" extension unitnumber = none := by
  simp only [selectFlowtype]
  rw [if_neg (by decide : ¬pyStrip (pyUpper "XYZ") = "CHD"),
    if_neg (by decide : ¬pyStrip (pyUpper "XYZ") = "GHB"),
    if_neg (by decide : ¬pyStrip (pyUpper "XYZ") = "DRN"),
    if_neg (by decide : ¬pyStrip (pyUpper "XYZ") = "RIV")]

/-- C7 (code side): constructing with the unrecognized boundary-type tag
`XYZ` does not select any metadata and the constructor fails — in the
source no branch matches, the local `name` stays unbound, and the
`Package.__init__` call raises `UnboundLocalError` instead of an
explicit `ConfigurationError` naming the tag. -/
theorem flwob_C7 (a : FlwobInput) (h : a.flowtype = "XYZ") :
    flwobInit a = none := by
  simp only [flwobInit, h, selectFlowtype_xyz, Option.none_bind]

/-- C7 witness: the failing input, a well-shaped construction whose tag
is `XYZ`. -/
theorem flwob_C7_witness : flwobInit a7 = none := flwob_C7 a7 rfl

/-- C4 (code side): on the docstring-conformant input `a4 ` — one group
with size flag `-2` and ragged rows of length `abs(-2) = 2` — the
constructor fails instead of padding to width `max(abs(nqclfb)) = 2`:
the source computes `max(self.nqclfb) = -2` (no absolute value) and
`np.zeros((nqfb, -2))` raises `ValueError: negative dimensions`. -/
theorem flwob_C4_bug :
    (a4.layer.getD 0 []).length = (a4.nqclfb.getD 0 0).natAbs ∧
    (a4.factor.getD 0 []).length = (a4.nqclfb.getD 0 0).natAbs ∧
    flwobInit a4 = none := by decide

/-- C8 (code side): the input `a8` violates `sum(nqobfb) == nqtfb`
(`nqobfb = [2]`, `nqtfb = 1`) yet the constructor succeeds — no shape
check rejects it — and the failure only surfaces during `write_file`,
which runs the global cursor past the flattened arrays (`IndexError`
mid-write). -/
theorem flwob_C8_bug :
    (a8.nqobfb.map Int.toNat).sum ≠ a8.nqtfb ∧
    (flwobInit a8).isSome = true ∧
    (flwobInit a8).bind write_file = none := by decide

/-- C6: the boundary-type tag `"chd "` (lowercase with trailing
whitespace) constructs exactly the same encoder as `"CHD"` under the
default tables, and any encoder it constructs carries the `CHD`
metadata: name pair `CHOB`/`DATA`, extension pair `chob`/`obc`, unit
pair `40`/`140`, and saved-output unit `iufbobsv = 140`. -/
theorem flwob_C6 (a : FlwobInput) (st : ModflowFlwob)
    (h : flwobInit { a with
      flowtype := "chd ", extension := defaultExtension,
      unitnumber := defaultUnitnumber } = some st) :
    flwobInit { a with
        flowtype := "chd ", extension := defaultExtension,
        unitnumber := defaultUnitnumber } =
      flwobInit { a with
        flowtype := "CHD", extension := defaultExtension,
        unitnumber := defaultUnitnumber } ∧
    st.name = ["CHOB", "DATA"] ∧ st.extension = ["chob", "obc"] ∧
    st.unitnumber = [40, 140] ∧ st.iufbobsv = 140 := by
  have hsel1 : selectFlowtype "chd " defaultExtension defaultUnitnumber =
      some chdMetaV := by decide
  have hsel2 : selectFlowtype "CHD" defaultExtension defaultUnitnumber =
      some chdMetaV := by decide
  constructor
  · simp only [flwobInit, hsel1, hsel2, Option.some_bind]
    rfl
  · simp only [flwobInit, hsel1, Option.some_bind] at h
    have hm := flwobCore_meta chdMetaV _ st h
    exact ⟨hm.1, hm.2.1, hm.2.2.1, hm.2.2.2.1⟩

/-- C6 witness: the theorem instantiated at the concrete input `aW`
(tag `"chd "`), which constructs the concrete state `stW6`. -/
theorem flwob_C6_witness :
    flwobInit { aW with
      flowtype := "chd ", extension := defaultExtension,
      unitnumber := defaultUnitnumber } = some stW6 ∧
    (flwobInit { aW with
        flowtype := "chd ", extension := defaultExtension,
        unitnumber := defaultUnitnumber } =
      flwobInit { aW with
        flowtype := "CHD", extension := defaultExtension,
        unitnumber := defaultUnitnumber } ∧
      stW6.name = ["CHOB", "DATA"] ∧ stW6.extension = ["chob", "obc"] ∧
      stW6.unitnumber = [40, 140] ∧ stW6.iufbobsv = 140) :=
  ⟨by decide, flwob_C6 aW stW6 (by decide)⟩

/-- C10: with a recognized boundary-type tag but the documented
empty-list default for `nqclfb`, construction always fails — the padded
width is Python `max(self.nqclfb)`, and `max` of an empty sequence
raises `ValueError` — so at least one group is required to construct an
encoder at all. -/
theorem flwob_C10 (a : FlwobInput) (meta : FlowtypeMeta)
    (hsel : selectFlowtype a.flowtype a.extension a.unitnumber = some meta)
    (hempty : a.nqclfb = []) : flwobInit a = none := by
  simp only [flwobInit, hsel, Option.some_bind, flwobCore, hempty,
    List.max?_nil, Option.bind_eq_bind, Option.none_bind]

/-- C10 witness: the theorem instantiated at the input `a10` (tag `CHD`,
all array parameters the documented empty defaults). -/
theorem flwob_C10_witness :
    selectFlowtype a10.flowtype a10.extension a10.unitnumber =
      some chdMetaV ∧
    flwobInit a10 = none :=
  ⟨by decide, flwob_C10 a10 chdMetaV (by decide) rfl⟩
